import Mathlib

/-!
# Verification of the mob-claude rotation engine

A shallow embedding of the mob-claude coordinator (Go) in Lean 4.
Go strings are modelled as `List Char`, one `Char` per byte (`len`,
slicing and `strings.ReplaceAll` on one-byte patterns are byte-wise in
Go, so list length and list operations coincide with the source).
Fallible calls are modelled with `Except`/`Option`; the external world
(mob.sh tool, git, dashboard HTTP API, summarization backend, local
filesystem) is supplied through explicit environment records, and each
command handler (`runStart`, `runNext`, `runDone`) returns its exit
status, the ordered trace of externally visible actions it performed,
and the resulting state of the local files it owns.
-/

abbrev GoStr := List Char

namespace MobClaude

/-! ## internal/plans/manager.go -/

/-- `GetPlanPath` sanitization (manager.go:31-37): branch names have both
path separators replaced by a dash.  `strings.ReplaceAll` with a
one-byte pattern and one-byte replacement is a byte-wise map. -/
def sanitizeBranch (branch : GoStr) : GoStr :=
  branch.map (fun c => if c = '/' then '-' else c) |>.map
    (fun c => if c = '\\' then '-' else c)

/-- The plan file name `mob-<sanitized>.md` built in `GetPlanPath`. -/
def planFilename (branch : GoStr) : GoStr :=
  "mob-".toList ++ sanitizeBranch branch ++ ".md".toList

/-- `PlansDir` constant from manager.go. -/
def plansDir : GoStr := ".claude/plans".toList

/-- `GetPlanPath` (manager.go:31-37): `filepath.Join(projectRoot, PlansDir, filename)`. -/
def getPlanPath (projectRoot branch : GoStr) : GoStr :=
  projectRoot ++ '/' :: plansDir ++ '/' :: planFilename branch

/-- The template written by `CreateDefaultPlan` (manager.go:93-114). -/
def defaultPlanTemplate (branch now : GoStr) : GoStr :=
  "# Mob Session: ".toList ++ branch ++
  "\n\n## Goal\n_Describe the goal of this mob session_\n\n## Current Status\n- [ ] Task 1\n- [ ] Task 2\n\n## Notes\n_Add notes during the session_\n\n## Decisions Made\n_Document important decisions_\n\n---\nCreated: ".toList ++
  now ++ "\n".toList

/-- `LoadPlan` (manager.go:60-70): a missing file yields `("", nil)`;
a read error is surfaced; otherwise the file content is returned.
`file` is the state of the plan file (`none` = does not exist). -/
def loadPlan (readOk : Bool) (file : Option GoStr) : Except GoStr GoStr :=
  match file with
  | none => .ok []
  | some content => if readOk then .ok content else .error "failed to read plan".toList

/-- `escapeJSON` (manager.go:198-205). The five sequential
`strings.ReplaceAll` calls are equivalent to this single pass: the
first pass doubles every backslash, and the later passes only
introduce backslashes in front of fresh escape letters, which the
earlier passes can no longer touch. -/
def escapeJSON (s : GoStr) : GoStr :=
  s.flatMap (fun c =>
    if c = '\\' then ['\\', '\\']
    else if c = '"' then ['\\', '"']
    else if c = '\n' then ['\\', 'n']
    else if c = '\r' then ['\\', 'r']
    else if c = '\t' then ['\\', 't']
    else [c])

/-- One quoted element of `formatStringArray` (manager.go:207-216). -/
def quoteJSON (s : GoStr) : GoStr := '"' :: escapeJSON s ++ ['"']

/-- `formatStringArray` (manager.go:207-216): empty slice yields the
empty string, otherwise the quoted elements joined by `", "`. -/
def formatStringArray (arr : List GoStr) : GoStr :=
  match arr with
  | [] => []
  | a :: rest => rest.foldl (fun acc s => acc ++ ", ".toList ++ quoteJSON s) (quoteJSON a)

/-- The `Summary` struct (manager.go:117-125).  The `Timestamp`
field is carried as its RFC3339-rendered string, which is how every
use site consumes it. -/
structure Summary where
  timestamp : GoStr
  driverName : GoStr
  driverNote : GoStr
  tldr : GoStr
  changes : List GoStr
  nextSteps : List GoStr
  branch : GoStr
deriving DecidableEq, Repr

/-- The file content produced by `SaveSummary` (manager.go:137-153):
the hand-rolled `fmt.Sprintf` JSON, with `escapeJSON` applied to the
string fields and `formatStringArray` to the slices.  The timestamp is
interpolated without escaping, exactly as in the source. -/
def saveSummaryContent (s : Summary) : GoStr :=
  '\x7b' :: "\n  \"timestamp\": \"".toList ++ s.timestamp ++
  "\",\n  \"driverName\": \"".toList ++ escapeJSON s.driverName ++
  "\",\n  \"driverNote\": \"".toList ++ escapeJSON s.driverNote ++
  "\",\n  \"tldr\": \"".toList ++ escapeJSON s.tldr ++
  "\",\n  \"changes\": [".toList ++ formatStringArray s.changes ++
  "],\n  \"nextSteps\": [".toList ++ formatStringArray s.nextSteps ++
  "],\n  \"branch\": \"".toList ++ escapeJSON s.branch ++
  "\"\n".toList ++ ['\x7d']

/-! ## A JSON reader

Models `encoding/json` unmarshalling as used by the repository:
`json.Unmarshal` of backend output into `GeneratedSummary`
(generator.go:135-140) and of a plan response into a `planText`
struct (api client, `GetPlan`).  The reader is strict: it accepts
standard JSON syntax (modulo `\uXXXX` escapes, which never occur in
the inputs reasoned about here) and rejects raw control characters,
trailing commas and trailing garbage, as `encoding/json` does. -/

inductive JsonValue where
  | null
  | bool (b : Bool)
  | num (raw : GoStr)
  | str (s : GoStr)
  | arr (elems : List JsonValue)
  | obj (members : List (GoStr × JsonValue))
deriving Repr

def isJsonWs (c : Char) : Bool :=
  c = ' ' || c = '\t' || c = '\n' || c = '\r'

def skipWs : GoStr → GoStr
  | [] => []
  | c :: l => if isJsonWs c then skipWs l else c :: l

def unescapeChar (c : Char) : Option Char :=
  if c = '"' then some '"'
  else if c = '\\' then some '\\'
  else if c = '/' then some '/'
  else if c = 'n' then some '\n'
  else if c = 'r' then some '\r'
  else if c = 't' then some '\t'
  else if c = 'b' then some (Char.ofNat 8)
  else if c = 'f' then some (Char.ofNat 12)
  else none

/-- Reads a JSON string body after the opening quote, returning the
decoded characters and the input following the closing quote. -/
def parseStrBody : GoStr → Option (GoStr × GoStr)
  | [] => none
  | c :: l =>
    if c = '"' then some ([], l)
    else if c = '\\' then
      match l with
      | [] => none
      | e :: l2 =>
        match unescapeChar e, parseStrBody l2 with
        | some d, some (s, r) => some (d :: s, r)
        | _, _ => none
    else if c.toNat < 32 then none
    else
      match parseStrBody l with
      | some (s, r) => some (c :: s, r)
      | none => none

def isNumChar (c : Char) : Bool :=
  c.isDigit || c = '-' || c = '+' || c = '.' || c = 'e' || c = 'E'

mutual

def parseValue : Nat → GoStr → Option (JsonValue × GoStr)
  | 0, _ => none
  | fuel + 1, input =>
    match skipWs input with
    | [] => none
    | c :: rest =>
      if c = '"' then
        match parseStrBody rest with
        | some (s, r) => some (.str s, r)
        | none => none
      else if c = '\x7b' then parseObjTail fuel (skipWs rest)
      else if c = '[' then parseArrTail fuel (skipWs rest)
      else if c = 't' then
        match rest with
        | 'r' :: 'u' :: 'e' :: r => some (.bool true, r)
        | _ => none
      else if c = 'f' then
        match rest with
        | 'a' :: 'l' :: 's' :: 'e' :: r => some (.bool false, r)
        | _ => none
      else if c = 'n' then
        match rest with
        | 'u' :: 'l' :: 'l' :: r => some (.null, r)
        | _ => none
      else if c.isDigit || c = '-' then
        some (.num ((c :: rest).takeWhile isNumChar), (c :: rest).dropWhile isNumChar)
      else none

/-- After the opening brace (whitespace already skipped). -/
def parseObjTail : Nat → GoStr → Option (JsonValue × GoStr)
  | 0, _ => none
  | fuel + 1, input =>
    match input with
    | [] => none
    | c :: rest =>
      if c = '\x7d' then some (.obj [], rest)
      else
        match parseMembers fuel input with
        | some (ms, r) => some (.obj ms, r)
        | none => none

/-- One or more `"key": value` members, ending at the closing brace. -/
def parseMembers : Nat → GoStr → Option (List (GoStr × JsonValue) × GoStr)
  | 0, _ => none
  | fuel + 1, input =>
    match input with
    | [] => none
    | c :: rest =>
      if c = '"' then
        match parseStrBody rest with
        | none => none
        | some (key, r1) =>
          match skipWs r1 with
          | ':' :: r2 =>
            match parseValue fuel r2 with
            | none => none
            | some (v, r3) =>
              match skipWs r3 with
              | ',' :: r4 =>
                match parseMembers fuel (skipWs r4) with
                | some (ms, r5) => some ((key, v) :: ms, r5)
                | none => none
              | c5 :: r5 => if c5 = '\x7d' then some ([(key, v)], r5) else none
              | [] => none
          | _ => none
      else none

/-- After the opening bracket (whitespace already skipped). -/
def parseArrTail : Nat → GoStr → Option (JsonValue × GoStr)
  | 0, _ => none
  | fuel + 1, input =>
    match input with
    | [] => none
    | c :: rest =>
      if c = ']' then some (.arr [], rest)
      else
        match parseElems fuel input with
        | some (vs, r) => some (.arr vs, r)
        | none => none

/-- One or more array elements, ending at the closing bracket. -/
def parseElems : Nat → GoStr → Option (List JsonValue × GoStr)
  | 0, _ => none
  | fuel + 1, input =>
    match parseValue fuel input with
    | none => none
    | some (v, r1) =>
      match skipWs r1 with
      | ',' :: r2 =>
        match parseElems fuel r2 with
        | some (vs, r3) => some (v :: vs, r3)
        | none => none
      | ']' :: r2 => some ([v], r2)
      | _ => none

end

/-- Parse a complete JSON document; trailing whitespace is allowed,
trailing data is not (as in `json.Unmarshal`).  Fuel `length + 1`
dominates every possible recursion on the input. -/
def jsonParse (s : GoStr) : Option JsonValue :=
  match parseValue (s.length + 1) s with
  | some (v, rest) => if skipWs rest = [] then some v else none
  | none => none

/-! ## internal/summary/generator.go -/

/-- The `GeneratedSummary` struct (generator.go:29-33). -/
structure GeneratedSummary where
  tldr : GoStr
  changes : List GoStr
  nextSteps : List GoStr
deriving DecidableEq, Repr

/-- Case-insensitive key match, as `encoding/json` falls back to for
struct field names. -/
def eqFold (a b : GoStr) : Bool :=
  a.map Char.toLower == b.map Char.toLower

def strElems : List JsonValue → Option (List GoStr)
  | [] => some []
  | .str s :: rest => (strElems rest).map (fun l => s :: l)
  | _ :: _ => none

/-- Applying one object member to a `GeneratedSummary` under
`json.Unmarshal` rules: matching string field takes a JSON string,
slice field takes an array of strings, `null` leaves the field,
unknown keys are ignored, and a type mismatch is an error. -/
def setGenField (g : GeneratedSummary) (key : GoStr) (v : JsonValue) :
    Option GeneratedSummary :=
  if eqFold key "tldr".toList then
    match v with
    | .str s => some { g with tldr := s }
    | .null => some g
    | _ => none
  else if eqFold key "changes".toList then
    match v with
    | .arr vs => (strElems vs).map (fun l => { g with changes := l })
    | .null => some g
    | _ => none
  else if eqFold key "nextSteps".toList then
    match v with
    | .arr vs => (strElems vs).map (fun l => { g with nextSteps := l })
    | .null => some g
    | _ => none
  else some g

/-- `json.Unmarshal` of a document into `GeneratedSummary`: the
top-level value must be an object (or `null`, which leaves the zero
value); members apply left to right. -/
def unmarshalGenerated : JsonValue → Option GeneratedSummary
  | .obj members =>
      members.foldlM (fun g (kv : GoStr × JsonValue) => setGenField g kv.1 kv.2)
        ⟨[], [], []⟩
  | .null => some ⟨[], [], []⟩
  | _ => none

/-- `unicode.IsSpace` on the ASCII range, as used by
`strings.TrimSpace`. -/
def isGoSpace (c : Char) : Bool :=
  c = ' ' || c = '\t' || c = '\n' || c = Char.ofNat 11 || c = Char.ofNat 12 || c = '\r'

def trimSpace (s : GoStr) : GoStr :=
  ((s.dropWhile isGoSpace).reverse.dropWhile isGoSpace).reverse

def hasPrefixGo (s p : GoStr) : Bool := p.isPrefixOf s

def trimPrefixGo (s p : GoStr) : GoStr :=
  if p.isPrefixOf s then s.drop p.length else s

def trimSuffixGo (s p : GoStr) : GoStr :=
  if p.isSuffixOf s then s.take (s.length - p.length) else s

def fenceJson : GoStr := "```json".toList

def fenceBare : GoStr := "```".toList

/-- `strings.Index(s, c)` for a one-byte pattern. -/
def firstIndexOfChar (s : GoStr) (c : Char) : Option Nat :=
  s.findIdx? (fun d => d = c)

/-- `strings.LastIndex(s, c)` for a one-byte pattern. -/
def lastIndexOfChar (s : GoStr) (c : Char) : Option Nat :=
  match s.reverse.findIdx? (fun d => d = c) with
  | some i => some (s.length - 1 - i)
  | none => none

/-- The code-fence stripping step of `parseResponse`
(generator.go:116-125). -/
def stripFences (r : GoStr) : GoStr :=
  if hasPrefixGo r fenceJson then
    trimSpace (trimSuffixGo (trimPrefixGo r fenceJson) fenceBare)
  else if hasPrefixGo r fenceBare then
    trimSpace (trimSuffixGo (trimPrefixGo r fenceBare) fenceBare)
  else r

/-- `parseResponse` (generator.go:112-141): trim, strip fences, slice
from the first opening brace to the last closing brace, unmarshal. -/
def parseResponse (response : GoStr) : Option GeneratedSummary :=
  let r := stripFences (trimSpace response)
  match firstIndexOfChar r '\x7b', lastIndexOfChar r '\x7d' with
  | some s, some e =>
    if e ≤ s then none
    else
      match jsonParse ((r.drop s).take (e + 1 - s)) with
      | some v => unmarshalGenerated v
      | none => none
  | _, _ => none

/-- `fallbackSummary` (generator.go:143-162). -/
def fallbackSummary (driverNote branch now : GoStr) : Summary :=
  let tldr :=
    if driverNote = [] then "Rotation completed".toList
    else if driverNote.length > 100 then driverNote.take 97 ++ "...".toList
    else driverNote
  { timestamp := now
    driverName := []
    driverNote := driverNote
    tldr := tldr
    changes := ["Changes made during rotation".toList]
    nextSteps := ["Continue from where the previous driver left off".toList]
    branch := branch }

/-- `Generate` (generator.go:36-61).  `claudeResult` is the outcome of
`callClaude` (the external backend invocation, including the
not-in-PATH check); the diff only feeds the prompt handed to that
external process, so it does not otherwise influence the result. -/
def generate (claudeResult : Except GoStr GoStr) (now _diff driverNote branch : GoStr) :
    Except GoStr Summary :=
  match claudeResult with
  | .error _ => .ok (fallbackSummary driverNote branch now)
  | .ok out =>
    match parseResponse out with
    | none => .ok (fallbackSummary driverNote branch now)
    | some g =>
      .ok { timestamp := now, driverName := [], driverNote := driverNote,
            tldr := g.tldr, changes := g.changes, nextSteps := g.nextSteps,
            branch := branch }

/-! ## internal/config/config.go -/

/-- The `Config` struct (config.go:16-22). -/
structure Config where
  apiURL : GoStr
  teamName : GoStr
  model : GoStr
  maxTurns : Int
  skipSummary : Bool
deriving DecidableEq, Repr

/-- `DefaultConfig` (config.go:34-42). -/
def defaultConfig : Config :=
  { apiURL := "http://localhost:3000".toList
    teamName := []
    model := "haiku".toList
    maxTurns := 3
    skipSummary := false }

/-- The `CurrentSession` struct (config.go:25-31). -/
structure Session where
  branch : GoStr
  repoURL : GoStr
  startedAt : GoStr
  driverName : GoStr
  workstreamID : GoStr
deriving DecidableEq, Repr

/-! ## internal/api client (`GetPlan`) -/

/-- Outcome of one HTTP round trip. -/
inductive HttpOutcome where
  | netError
  | status (code : Nat) (body : GoStr)
deriving DecidableEq, Repr

/-- `json.Unmarshal` of a body into `struct { PlanText string }`
followed by the `planResp.PlanText != ""` check of `GetPlan`
(part_000:197-203). -/
def planTextOfBody (body : GoStr) : Option GoStr :=
  match jsonParse body with
  | some (.obj members) =>
    match members.foldlM
        (fun (acc : GoStr) (kv : GoStr × JsonValue) =>
          if eqFold kv.1 "planText".toList then
            match kv.2 with
            | .str s => some s
            | .null => some acc
            | _ => none
          else some acc) ([] : GoStr) with
    | some pt => if pt = [] then none else some pt
    | none => none
  | some .null => none
  | _ => none

/-- `Client.GetPlan` (part_000:173-206): a transport error or non-2xx
non-404 status is an error; 404 yields the empty string; a 200 body
that unmarshals to a non-empty `planText` yields that text, otherwise
the raw body is returned. -/
def getPlanResult : HttpOutcome → Except GoStr GoStr
  | .netError => .error "failed to fetch plan".toList
  | .status code body =>
    if code = 404 then .ok []
    else if code ≠ 200 then .error "API error".toList
    else
      match planTextOfBody body with
      | some pt => .ok pt
      | none => .ok body

/-! ## cmd/mob-claude/main.go — plan reconciliation at `start` -/

/-- The decision taken by the `if/else` chain of `runStart`
(main.go:189-206) given the effective remote text `planText` and the
locally loaded plan `localPlan` (both already mapped to `""` when
absent, by `GetPlan`/`LoadPlan`). -/
inductive ReconcileAction where
  | createDefault
  | adoptRemote
  | keep
deriving DecidableEq, Repr

def reconcileAction (planText localPlan : GoStr) : ReconcileAction :=
  if planText = [] ∧ localPlan = [] then .createDefault
  else if planText ≠ [] ∧ planText ≠ localPlan then .adoptRemote
  else .keep

/-- The local plan content after the reconciliation step, assuming the
local write (if any) succeeds.  `template` is the
`CreateDefaultPlan` content. -/
def reconciledLocal (planText localPlan template : GoStr) : GoStr :=
  match reconcileAction planText localPlan with
  | .createDefault => template
  | .adoptRemote => planText
  | .keep => localPlan

/-! ## cmd/mob-claude/main.go — command handlers

Each handler is a function of an environment record describing every
external outcome (tool availability, git answers, HTTP results, file
system results).  It returns the exit status presented to cobra
(`.error` means a non-zero process exit), the ordered trace of
externally visible actions, and the final state of the files the tool
owns (the plan file and the session file). -/

inductive Ev where
  | mobStart
  | apiGetPlan (branch : GoStr)
  | savePlanLocal (branch content : GoStr)
  | apiCreateWorkstream (repoURL branch : GoStr)
  | saveSessionFile (s : Session)
  | saveSummaryFile (s : Summary)
  | apiCreateRotation (branch : GoStr)
  | apiUpdatePlan (branch content : GoStr)
  | clearSession
  | mobNext
  | mobDone
deriving DecidableEq, Repr

def msgMobMissing : GoStr :=
  "mob.sh is not installed or not in PATH. Install from: https://mob.sh".toList

def msgNilConfig : GoStr := "panic: nil config dereference".toList

def msgPlanMgr : GoStr := "failed to initialize plan manager".toList

def msgMobStart : GoStr := "mob start failed".toList

def msgCurrentBranch : GoStr := "failed to get current branch".toList

def msgLoadSession : GoStr := "failed to load session".toList

def msgNoActiveSession : GoStr :=
  "no active mob session. Run 'mob-claude start' first".toList

def msgMobNext : GoStr := "mob next failed".toList

def msgMobDone : GoStr := "mob done failed".toList

/-- External-world outcomes consumed by `runStart`. -/
structure StartEnv where
  /-- `CheckMobInstalled` succeeds. -/
  mobInstalled : Bool
  /-- `config.Load` succeeds; on failure Go only warns, leaving a nil
  config that is dereferenced later (main.go:138-141, 174). -/
  cfgLoadOk : Bool
  cfg : Config
  /-- `plans.NewManager` (os.Getwd) succeeds. -/
  planMgrOk : Bool
  /-- the `mob start` subprocess succeeds. -/
  mobStartOk : Bool
  /-- `GetCurrentBranch` outcome. -/
  currentBranch : Except Unit GoStr
  /-- `GetBaseBranch` succeeds (else the current branch is used). -/
  baseBranchOk : Bool
  baseBranch : GoStr
  /-- `GetRepoURL` succeeds (else "unknown" is used). -/
  repoURLOk : Bool
  repoURL : GoStr
  /-- HTTP outcome of `client.GetPlan` when the API is configured. -/
  remoteHttp : HttpOutcome
  /-- state of the local plan file (`none` = absent). -/
  localPlanFile : Option GoStr
  /-- reading an existing plan file succeeds. -/
  localReadOk : Bool
  /-- `SavePlan` / `CreateDefaultPlan` write succeeds. -/
  writePlanOk : Bool
  /-- `client.CreateWorkstream` succeeds. -/
  createWorkstreamOk : Bool
  workstreamID : GoStr
  /-- `SaveCurrentSession` write succeeds. -/
  saveSessionOk : Bool
  /-- pre-existing session file (overwritten by a successful save). -/
  sessionFile0 : Option Session
  driverName : GoStr
  now : GoStr
deriving Repr

structure CmdOut where
  exit : Except GoStr Unit
  events : List Ev
  localPlanFile : GoStr
  sessionFile : Option Session
deriving Repr

/-- Whether the dashboard is configured
(`cfg.TeamName != "" && cfg.APIURL != ""`). -/
def apiConfigured (cfg : Config) : Prop :=
  cfg.teamName ≠ [] ∧ cfg.apiURL ≠ []

instance (cfg : Config) : Decidable (apiConfigured cfg) := by
  unfold apiConfigured; infer_instance

/-- The effective remote plan text seen by the reconciliation chain of
`runStart` (main.go:172-183): empty unless the API is configured, the
fetch succeeds and the returned plan is non-empty. -/
def startRemoteText (cfg : Config) (remoteHttp : HttpOutcome) : GoStr :=
  if apiConfigured cfg then
    match getPlanResult remoteHttp with
    | .ok r => if r ≠ [] then r else []
    | .error _ => []
  else []

/-- The locally loaded plan as `runStart`/`runNext` consume it
(`localPlan, _ := planMgr.LoadPlan(...)` swallows the error into ""). -/
def loadedPlan (readOk : Bool) (file : Option GoStr) : GoStr :=
  match loadPlan readOk file with
  | .ok c => c
  | .error _ => []

/-- The logical base branch `start` keys plans and sessions by
(main.go:161-164): `GetBaseBranch`, falling back to the current
branch on failure. -/
def startBase (env : StartEnv) (cur : GoStr) : GoStr :=
  if env.baseBranchOk then env.baseBranch else cur

/-- `runStart` (main.go:122-240). -/
def runStart (env : StartEnv) : CmdOut :=
  let planFile0 := loadedPlan env.localReadOk env.localPlanFile
  if ¬ env.mobInstalled then
    ⟨.error msgMobMissing, [], planFile0, env.sessionFile0⟩
  else if ¬ env.planMgrOk then
    ⟨.error msgPlanMgr, [], planFile0, env.sessionFile0⟩
  else if ¬ env.mobStartOk then
    ⟨.error msgMobStart, [.mobStart], planFile0, env.sessionFile0⟩
  else
    match env.currentBranch with
    | .error _ => ⟨.error msgCurrentBranch, [.mobStart], planFile0, env.sessionFile0⟩
    | .ok cur =>
      if ¬ env.cfgLoadOk then
        -- Go: cfg is nil after a Load error; the first dereference
        -- `cfg.TeamName` (main.go:174) panics.
        ⟨.error msgNilConfig, [.mobStart], planFile0, env.sessionFile0⟩
      else
        let cfg := env.cfg
        let base := startBase env cur
        let repo := if env.repoURLOk then env.repoURL else "unknown".toList
        let fetchEvents : List Ev :=
          if apiConfigured cfg then [.apiGetPlan base] else []
        let planText := startRemoteText cfg env.remoteHttp
        let localPlan := planFile0
        let act := reconcileAction planText localPlan
        let template := defaultPlanTemplate base env.now
        let planEvents : List Ev :=
          match act with
          | .createDefault => [.savePlanLocal base template]
          | .adoptRemote => [.savePlanLocal base planText]
          | .keep => []
        let planFile1 :=
          if env.writePlanOk then reconciledLocal planText localPlan template
          else localPlan
        let wsEvents : List Ev :=
          if apiConfigured cfg then [.apiCreateWorkstream repo base] else []
        let wsID :=
          if apiConfigured cfg ∧ env.createWorkstreamOk then env.workstreamID else []
        let session : Session :=
          { branch := base, repoURL := repo, startedAt := env.now
            driverName := env.driverName, workstreamID := wsID }
        let sessionFile1 :=
          if env.saveSessionOk then some session else env.sessionFile0
        ⟨.ok (), [.mobStart] ++ fetchEvents ++ planEvents ++ wsEvents ++
          [.saveSessionFile session], planFile1, sessionFile1⟩

/-- External-world outcomes consumed by `runNext` / `runDone`. -/
structure CmdEnv where
  mobInstalled : Bool
  /-- `LoadCurrentSession` read succeeds. -/
  sessionReadOk : Bool
  /-- state of the session file (`none` = absent). -/
  sessionFile : Option Session
  /-- `config.Load` succeeds (else `DefaultConfig` is used,
  main.go:259-262 and 369-372). -/
  cfgLoadOk : Bool
  cfg : Config
  planMgrOk : Bool
  /-- the `--skip-summary` flag. -/
  skipSummaryFlag : Bool
  /-- the `-m` note. -/
  message : GoStr
  /-- `GetDiffFromBase` outcome (failure degrades to ""). -/
  diffOk : Bool
  diff : GoStr
  /-- outcome of the summarization backend invocation. -/
  claudeResult : Except GoStr GoStr
  /-- `SaveSummary` write succeeds. -/
  saveSummaryOk : Bool
  localPlanFile : Option GoStr
  localReadOk : Bool
  createRotationOk : Bool
  updatePlanOk : Bool
  /-- `ClearCurrentSession` (os.Remove) succeeds. -/
  clearOk : Bool
  mobNextOk : Bool
  mobDoneOk : Bool
  now : GoStr
deriving Repr

/-- The config `runNext`/`runDone` proceed with: a `Load` failure
degrades to `DefaultConfig` (main.go:259-262, 369-372). -/
def cmdConfig (env : CmdEnv) : Config :=
  if env.cfgLoadOk then env.cfg else defaultConfig

/-- The summary object built by `runNext` (main.go:270-298): the
generated summary (with the driver name filled in), or the minimal
note-only summary when generation is skipped and a note was given. -/
def nextSummaryObj (env : CmdEnv) (session : Session) : Option Summary :=
  if ¬ env.skipSummaryFlag ∧ ¬ (cmdConfig env).skipSummary then
    let diff := if env.diffOk then env.diff else []
    match generate env.claudeResult env.now diff env.message session.branch with
    | .ok s => some { s with driverName := session.driverName }
    | .error _ => none
  else if env.message ≠ [] then
    some { timestamp := env.now, driverName := session.driverName
           driverNote := env.message, tldr := env.message
           changes := [], nextSteps := [], branch := session.branch }
  else none

/-- The actions `runNext` performs before clearing the session and
delegating (main.go:300-343): the local summary write and the
best-effort dashboard uploads. -/
def nextPreEvents (env : CmdEnv) (session : Session) : List Ev :=
  (match nextSummaryObj env session with
   | some s => [.saveSummaryFile s]
   | none => []) ++
  (match nextSummaryObj env session with
   | some _ =>
     if apiConfigured (cmdConfig env) then
       [.apiCreateRotation session.branch] ++
         (if loadedPlan env.localReadOk env.localPlanFile ≠ [] then
           [.apiUpdatePlan session.branch (loadedPlan env.localReadOk env.localPlanFile)]
          else [])
     else []
   | none => [])

/-- `runNext` (main.go:242-353). -/
def runNext (env : CmdEnv) : CmdOut :=
  let planFile0 := loadedPlan env.localReadOk env.localPlanFile
  if ¬ env.mobInstalled then
    ⟨.error msgMobMissing, [], planFile0, env.sessionFile⟩
  else if ¬ env.sessionReadOk then
    ⟨.error msgLoadSession, [], planFile0, env.sessionFile⟩
  else
    match env.sessionFile with
    | none => ⟨.error msgNoActiveSession, [], planFile0, none⟩
    | some session =>
      if ¬ env.planMgrOk then
        ⟨.error msgPlanMgr, [], planFile0, env.sessionFile⟩
      else
        let sessionFile1 := if env.clearOk then none else env.sessionFile
        let exit : Except GoStr Unit :=
          if env.mobNextOk then .ok () else .error msgMobNext
        ⟨exit, nextPreEvents env session ++ [.clearSession, .mobNext],
          planFile0, sessionFile1⟩

/-- The actions `runDone` performs before clearing the session and
delegating (main.go:374-411): the final summary write and the
best-effort rotation upload, all skipped without a session or on any
earlier failure. -/
def donePreEvents (env : CmdEnv) : List Ev :=
  match env.sessionFile with
  | some session =>
    if ¬ env.skipSummaryFlag ∧ ¬ (cmdConfig env).skipSummary then
      if env.planMgrOk then
        let diff := if env.diffOk then env.diff else []
        match generate env.claudeResult env.now diff env.message session.branch with
        | .ok s =>
          [.saveSummaryFile { s with driverName := session.driverName }] ++
            (if apiConfigured (cmdConfig env) then
              [.apiCreateRotation session.branch]
             else [])
        | .error _ => []
      else []
    else []
  | none => []

/-- `runDone` (main.go:355-419). -/
def runDone (env : CmdEnv) : CmdOut :=
  let planFile0 := loadedPlan env.localReadOk env.localPlanFile
  if ¬ env.mobInstalled then
    ⟨.error msgMobMissing, [], planFile0, env.sessionFile⟩
  else if ¬ env.sessionReadOk then
    ⟨.error msgLoadSession, [], planFile0, env.sessionFile⟩
  else
    let sessionFile1 := if env.clearOk then none else env.sessionFile
    let exit : Except GoStr Unit :=
      if env.mobDoneOk then .ok () else .error msgMobDone
    ⟨exit, donePreEvents env ++ [.clearSession, .mobDone], planFile0, sessionFile1⟩

/-! ## Character domains for the hand-rolled JSON serializer -/

/-- The domain on which `SaveSummary`'s serializer is exact: no
control characters other than newline, carriage return and tab
(those three are the only control characters `escapeJSON` escapes). -/
def jsonSafeField (s : GoStr) : Prop :=
  ∀ c ∈ s, c.toNat < 32 → c = '\n' ∨ c = '\r' ∨ c = '\t'

instance (s : GoStr) : Decidable (jsonSafeField s) := by
  unfold jsonSafeField; infer_instance

/-- Characters an RFC3339 timestamp rendering consists of: printable,
no quote, no backslash.  `time.Time.Format(time.RFC3339)` emits only
digits and `-T:+.Z`, all of which satisfy this. -/
def rawSafe (s : GoStr) : Prop :=
  ∀ c ∈ s, 32 ≤ c.toNat ∧ c ≠ '"' ∧ c ≠ '\\'

instance (s : GoStr) : Decidable (rawSafe s) := by
  unfold rawSafe; infer_instance

/-- The JSON document a correct parse of `SaveSummary`'s output must
recover: an object carrying exactly the seven original field values. -/
def summaryJson (s : Summary) : JsonValue :=
  .obj [("timestamp".toList, .str s.timestamp),
        ("driverName".toList, .str s.driverName),
        ("driverNote".toList, .str s.driverNote),
        ("tldr".toList, .str s.tldr),
        ("changes".toList, .arr (s.changes.map .str)),
        ("nextSteps".toList, .arr (s.nextSteps.map .str)),
        ("branch".toList, .str s.branch)]

/-! ## Concrete scenario environments (used by witnesses) -/

/-- A fully healthy `start` environment whose remote returns plan "B"
while the local plan file holds "A" (the §8 remote-wins scenario). -/
def envStartRemoteWins : StartEnv :=
  { mobInstalled := true
    cfgLoadOk := true
    cfg := { defaultConfig with teamName := "team".toList }
    planMgrOk := true
    mobStartOk := true
    currentBranch := .ok "mob/feature-x".toList
    baseBranchOk := true
    baseBranch := "feature-x".toList
    repoURLOk := true
    repoURL := "git@example.com:r.git".toList
    remoteHttp := .status 200 "B".toList
    localPlanFile := some "A".toList
    localReadOk := true
    writePlanOk := true
    createWorkstreamOk := true
    workstreamID := "ws1".toList
    saveSessionOk := true
    sessionFile0 := none
    driverName := "ann".toList
    now := "2024-01-02T03:04:05Z".toList }

/-- A healthy `start` environment in which only the session save
fails. -/
def envStartSaveFails : StartEnv :=
  { envStartRemoteWins with saveSessionOk := false }

/-- A `next`/`done` environment with an active session, a configured
dashboard whose calls fail, and a failing summarization backend. -/
def envNextActive : CmdEnv :=
  { mobInstalled := true
    sessionReadOk := true
    sessionFile := some
      { branch := "feature-x".toList, repoURL := "git@example.com:r.git".toList
        startedAt := "2024-01-02T03:04:05Z".toList, driverName := "ann".toList
        workstreamID := "ws1".toList }
    cfgLoadOk := true
    cfg := { defaultConfig with teamName := "team".toList }
    planMgrOk := true
    skipSummaryFlag := false
    message := "note".toList
    diffOk := false
    diff := []
    claudeResult := .error "claude CLI not found in PATH".toList
    saveSummaryOk := false
    localPlanFile := some "A".toList
    localReadOk := true
    createRotationOk := false
    updatePlanOk := false
    clearOk := true
    mobNextOk := true
    mobDoneOk := true
    now := "2024-01-02T04:05:06Z".toList }

/-- The same environment without a session file. -/
def envNextNoSession : CmdEnv :=
  { envNextActive with sessionFile := none }

/-- An active environment whose session clear fails. -/
def envNextClearFails : CmdEnv :=
  { envNextActive with clearOk := false }

/-- A concrete summary exercising escapes in every field class. -/
def exampleSummary : Summary :=
  { timestamp := "2024-01-02T03:04:05Z".toList
    driverName := "Ann \"A\"".toList
    driverNote := "line one\nline two".toList
    tldr := "did\tthings".toList
    changes := ["c:\\path".toList, "b".toList]
    nextSteps := ["keep going".toList]
    branch := "feat/x".toList }

/-! ## C6 — fallback tldr truncation -/

/-- C6: In the fallback summary, a driver note longer than 100
characters yields a tldr of exactly 100 characters ending in the
ellipsis marker "..."; a non-empty note of at most 100 characters is
used verbatim; the empty note yields the fixed generic string. -/
theorem fallback_tldr_truncation (note branch now : GoStr) :
    (note.length > 100 →
      (fallbackSummary note branch now).tldr.length = 100 ∧
      ∃ p, (fallbackSummary note branch now).tldr = p ++ "...".toList) ∧
    (note ≠ [] → note.length ≤ 100 →
      (fallbackSummary note branch now).tldr = note) ∧
    (note = [] →
      (fallbackSummary note branch now).tldr = "Rotation completed".toList) := by
  refine ⟨?_, ?_, ?_⟩
  · intro h
    have hne : note ≠ [] := by
      intro he
      rw [he] at h
      simp at h
    simp only [fallbackSummary, if_neg hne, if_pos h]
    refine ⟨?_, note.take 97, rfl⟩
    simp only [List.length_append, List.length_take]
    have : min 97 note.length = 97 := by omega
    rw [this]
    decide
  · intro hne hle
    have hnotgt : ¬ note.length > 100 := by omega
    simp only [fallbackSummary, if_neg hne, if_neg hnotgt]
  · intro he
    simp only [fallbackSummary, if_pos he]

/-- C6 witness at a 101-character note, at a 100-character note and at
the empty note. -/
theorem fallback_tldr_truncation_witness :
    (fallbackSummary (List.replicate 101 'a') "b".toList "t".toList).tldr.length = 100 ∧
    (fallbackSummary (List.replicate 100 'a') "b".toList "t".toList).tldr =
      List.replicate 100 'a' ∧
    (fallbackSummary [] "b".toList "t".toList).tldr = "Rotation completed".toList := by
  refine ⟨?_, ?_, ?_⟩
  · exact ((fallback_tldr_truncation (List.replicate 101 'a') "b".toList "t".toList).1
      (by decide)).1
  · exact (fallback_tldr_truncation (List.replicate 100 'a') "b".toList "t".toList).2.1
      (by decide) (by decide)
  · exact (fallback_tldr_truncation [] "b".toList "t".toList).2.2 rfl

/-! ## C8 — plan filename sanitization -/

/-- C8: The plan filename derived from any branch name contains no
path separator ('/' or '\'), and the derivation is deterministic: the
same branch always yields the same plan path. -/
theorem plan_filename_sanitized (branch : GoStr) :
    '/' ∉ planFilename branch ∧ '\\' ∉ planFilename branch ∧
    ∀ root b', branch = b' → getPlanPath root branch = getPlanPath root b' := by
  refine ⟨?_, ?_, ?_⟩
  · intro hmem
    simp only [planFilename, sanitizeBranch, List.mem_append, List.mem_map] at hmem
    rcases hmem with (h | ⟨y, ⟨x, _, rfl⟩, hfy⟩) | h
    · revert h
      decide
    · by_cases hx : x = '/' <;> by_cases hx2 : (if x = '/' then '-' else x) = '\\' <;>
        simp [hx, hx2] at hfy <;> simp_all
    · revert h
      decide
  · intro hmem
    simp only [planFilename, sanitizeBranch, List.mem_append, List.mem_map] at hmem
    rcases hmem with (h | ⟨y, ⟨x, _, rfl⟩, hfy⟩) | h
    · revert h
      decide
    · by_cases hx : x = '/' <;> by_cases hx2 : (if x = '/' then '-' else x) = '\\' <;>
        simp [hx, hx2] at hfy <;> simp_all
    · revert h
      decide
  · intro root b' h
    rw [h]

/-- C8 witness on a branch containing both separators. -/
theorem plan_filename_sanitized_witness :
    '/' ∉ planFilename "feat/x\\y".toList ∧
    getPlanPath "/root".toList "feat/x\\y".toList =
      getPlanPath "/root".toList "feat/x\\y".toList := by
  refine ⟨(plan_filename_sanitized "feat/x\\y".toList).1, ?_⟩
  exact (plan_filename_sanitized "feat/x\\y".toList).2.2 "/root".toList
    "feat/x\\y".toList rfl

/-! ## C10 — absent and empty plans are indistinguishable -/

/-- C10: `LoadPlan` returns "" both for a missing and for an empty
plan file; `GetPlan` returns "" both on a 404 and on an empty 200
body; and the `start` reconciliation treats an empty local plan as
absent (overwritten by the template or the remote copy) and an empty
remote plan as absent (local kept). -/
theorem absent_empty_plan_conflation :
    loadPlan true none = .ok [] ∧
    loadPlan true (some []) = .ok [] ∧
    (∀ body, getPlanResult (.status 404 body) = .ok []) ∧
    getPlanResult (.status 200 []) = .ok [] ∧
    (∀ cfg remoteHttp, getPlanResult remoteHttp = .ok ([] : GoStr) →
      startRemoteText cfg remoteHttp = []) ∧
    reconcileAction [] [] = .createDefault ∧
    (∀ R, R ≠ [] → reconcileAction R [] = .adoptRemote) ∧
    (∀ L, L ≠ [] → reconcileAction [] L = .keep) := by
  refine ⟨rfl, rfl, fun body => rfl, rfl, ?_, rfl, ?_, ?_⟩
  · intro cfg remoteHttp h
    unfold startRemoteText
    rw [h]
    simp
  · intro R hR
    simp [reconcileAction, hR]
  · intro L hL
    simp [reconcileAction, hL]

/-- C10 witness: concrete non-empty plans on both sides of the
conflation conjuncts. -/
theorem absent_empty_plan_conflation_witness :
    reconcileAction "B".toList [] = .adoptRemote ∧
    reconcileAction [] "A".toList = .keep ∧
    startRemoteText defaultConfig (.status 404 "x".toList) = [] := by
  refine ⟨?_, ?_, ?_⟩
  · exact absent_empty_plan_conflation.2.2.2.2.2.2.1 "B".toList (by decide)
  · exact absent_empty_plan_conflation.2.2.2.2.2.2.2 "A".toList (by decide)
  · exact absent_empty_plan_conflation.2.2.2.2.1 defaultConfig
      (.status 404 "x".toList) rfl

/-! ## C3 — `next` with no session is a hard precondition failure -/

/-- C3: When `next` runs with no stored session, it exits with the
"no active session" error, and its trace is empty: no summary file is
written and no remote call is made. -/
theorem next_no_session_fails (env : CmdEnv)
    (hMob : env.mobInstalled = true) (hRead : env.sessionReadOk = true)
    (hNone : env.sessionFile = none) :
    (runNext env).exit = .error msgNoActiveSession ∧
    (runNext env).events = [] ∧
    (∀ s, Ev.saveSummaryFile s ∉ (runNext env).events) ∧
    (∀ b, Ev.apiCreateRotation b ∉ (runNext env).events) ∧
    (∀ b c, Ev.apiUpdatePlan b c ∉ (runNext env).events) := by
  have h : runNext env =
      ⟨.error msgNoActiveSession, [], loadedPlan env.localReadOk env.localPlanFile,
        none⟩ := by
    unfold runNext
    rw [hMob, hRead, hNone]
    simp
  rw [h]
  exact ⟨rfl, rfl, fun s h => by simp at h, fun b h => by simp at h,
    fun b c h => by simp at h⟩

/-- C3 witness on the concrete no-session environment. -/
theorem next_no_session_fails_witness :
    (runNext envNextNoSession).exit = .error msgNoActiveSession ∧
    (runNext envNextNoSession).events = [] := by
  have h := next_no_session_fails envNextNoSession rfl rfl rfl
  exact ⟨h.1, h.2.1⟩

/-! ## C2 — the session is cleared before the hand-off -/

/-- C2: For every run of `next` and of `done` (whatever the remote,
backend, diff or summary outcomes), the session clear happens strictly
before the delegation to the underlying mob tool — the trace ends with
`clearSession` followed by the mob hand-off — and afterwards the
stored session is absent. -/
theorem session_cleared_before_handoff (env : CmdEnv)
    (hMob : env.mobInstalled = true) (hRead : env.sessionReadOk = true)
    (hMgr : env.planMgrOk = true) (hClear : env.clearOk = true) :
    (env.sessionFile ≠ none →
      ∃ pre, (runNext env).events = pre ++ [Ev.clearSession, Ev.mobNext]) ∧
    (runNext env).sessionFile = none ∧
    (∃ pre, (runDone env).events = pre ++ [Ev.clearSession, Ev.mobDone]) ∧
    (runDone env).sessionFile = none := by
  refine ⟨?_, ?_, ?_, ?_⟩
  · intro hne
    cases hs : env.sessionFile with
    | none => exact absurd hs hne
    | some session =>
      exact ⟨nextPreEvents env session, by simp [runNext, hMob, hRead, hMgr, hs]⟩
  · cases hs : env.sessionFile with
    | none => simp [runNext, hMob, hRead, hs]
    | some session => simp [runNext, hMob, hRead, hMgr, hs, hClear]
  · exact ⟨donePreEvents env, by simp [runDone, hMob, hRead]⟩
  · simp [runDone, hMob, hRead, hClear]

/-- C2 witness: in the concrete active environment with failing
backend and failing dashboard, the trace still ends with the clear
followed by the hand-off and the session ends absent. -/
theorem session_cleared_before_handoff_witness :
    (runNext envNextActive).sessionFile = none ∧
    (runDone envNextActive).sessionFile = none ∧
    (∃ pre, (runNext envNextActive).events = pre ++ [Ev.clearSession, Ev.mobNext]) := by
  have h := session_cleared_before_handoff envNextActive rfl rfl rfl rfl
  exact ⟨h.2.1, h.2.2.2, h.1 (by simp [envNextActive])⟩

/-- Helper: `runStart` contains no `UpdatePlan` call in any branch —
`start` never pushes plan content to the remote store
(main.go:122-240 has no such call). -/
theorem runStart_no_remote_plan_write (env : StartEnv) (br c : GoStr) :
    Ev.apiUpdatePlan br c ∉ (runStart env).events := by
  intro hmem
  unfold runStart at hmem
  split at hmem
  · simp at hmem
  · split at hmem
    · simp at hmem
    · split at hmem
      · simp at hmem
      · split at hmem
        · simp at hmem
        · split at hmem
          · simp at hmem
          · rcases List.mem_append.mp hmem with h4 | h4
            · rcases List.mem_append.mp h4 with h3 | h3
              · rcases List.mem_append.mp h3 with h2 | h2
                · rcases List.mem_append.mp h2 with h1m | h1m
                  · simp at h1m
                  · revert h1m
                    split <;> simp
                · revert h2
                  split <;> simp
              · revert h3
                split <;> simp
            · simp at h4

/-! ## C1 — the §4.2 reconciliation table governs `start` -/

/-- C1: In every healthy invocation of `start` (tool present, plan
manager and writes working, branch resolved), the local plan file ends
up exactly as the §4.2 table dictates on the effective remote text `R`
and the loaded local plan `L`: both absent — templated default, no
push; only remote — remote adopted; only local — kept, no write; both
equal — no write; both differing — remote wins.  `start` never pushes
plan content to the remote store in any branch. -/
theorem start_reconciliation_table (env : StartEnv) (cur : GoStr)
    (hMob : env.mobInstalled = true) (hMgr : env.planMgrOk = true)
    (hStart : env.mobStartOk = true) (hCfg : env.cfgLoadOk = true)
    (hBr : env.currentBranch = .ok cur) (hW : env.writePlanOk = true) :
    (runStart env).localPlanFile =
      reconciledLocal (startRemoteText env.cfg env.remoteHttp)
        (loadedPlan env.localReadOk env.localPlanFile)
        (defaultPlanTemplate (startBase env cur) env.now) ∧
    (∀ br c, Ev.apiUpdatePlan br c ∉ (runStart env).events) ∧
    (∀ R L tpl : GoStr, R = [] → L = [] →
      reconcileAction R L = .createDefault ∧ reconciledLocal R L tpl = tpl) ∧
    (∀ R L tpl : GoStr, R ≠ [] → L = [] → reconciledLocal R L tpl = R) ∧
    (∀ R L tpl : GoStr, R = [] → L ≠ [] →
      reconcileAction R L = .keep ∧ reconciledLocal R L tpl = L) ∧
    (∀ R L tpl : GoStr, R ≠ [] → R = L →
      reconcileAction R L = .keep ∧ reconciledLocal R L tpl = L) ∧
    (∀ R L tpl : GoStr, R ≠ [] → L ≠ [] → R ≠ L → reconciledLocal R L tpl = R) := by
  refine ⟨?_, ?_, ?_, ?_, ?_, ?_, ?_⟩
  · simp [runStart, hMob, hMgr, hStart, hCfg, hBr, hW]
  · exact fun br c => runStart_no_remote_plan_write env br c
  · intro R L tpl hR hL
    subst hR
    subst hL
    exact ⟨rfl, rfl⟩
  · intro R L tpl hR hL
    subst hL
    simp [reconciledLocal, reconcileAction, hR]
  · intro R L tpl hR hL
    subst hR
    simp [reconciledLocal, reconcileAction, hL]
  · intro R L tpl hR hRL
    subst hRL
    simp [reconciledLocal, reconcileAction, hR]
  · intro R L tpl hR hL hRL
    simp [reconciledLocal, reconcileAction, hR, hRL]

/-- C1 witness: the §8 remote-wins scenario — local plan "A", remote
plan "B" — ends with the local plan file holding "B". -/
theorem start_reconciliation_table_witness :
    (runStart envStartRemoteWins).localPlanFile = "B".toList := by
  have h := start_reconciliation_table envStartRemoteWins "mob/feature-x".toList
    rfl rfl rfl rfl rfl rfl
  rw [h.1]
  rfl

/-! ## C5 — which session-file failures are hard errors -/

/-- C5 counterexample: in a fully healthy `start` run whose only
failure is the session save, the command still exits successfully —
the failed session save does not abort `start`, contradicting the
claim (main.go:231-233 prints a warning and continues). -/
theorem session_save_failure_does_not_abort :
    envStartSaveFails.saveSessionOk = false ∧
    (runStart envStartSaveFails).exit = .ok () := by
  constructor
  · rfl
  · rfl

/-- C5 amended: only a failure to *read* the session file aborts
(`next` and `done` both hard-fail on it); a failed session save during
`start` and a failed session clear during `next` are mere warnings:
the commands complete successfully regardless. -/
theorem session_persistence_policy (envR envC : CmdEnv) (envS : StartEnv) :
    (envR.mobInstalled = true → envR.sessionReadOk = false →
      (runNext envR).exit = .error msgLoadSession ∧
      (runDone envR).exit = .error msgLoadSession) ∧
    (envS.mobInstalled = true → envS.planMgrOk = true → envS.mobStartOk = true →
      envS.cfgLoadOk = true → (∃ cur, envS.currentBranch = .ok cur) →
      envS.saveSessionOk = false → (runStart envS).exit = .ok ()) ∧
    (envC.mobInstalled = true → envC.sessionReadOk = true → envC.planMgrOk = true →
      envC.sessionFile ≠ none → envC.clearOk = false → envC.mobNextOk = true →
      (runNext envC).exit = .ok ()) := by
  refine ⟨?_, ?_, ?_⟩
  · intro hMob hRead
    constructor
    · simp [runNext, hMob, hRead]
    · simp [runDone, hMob, hRead]
  · rintro hMob hMgr hStart hCfg ⟨cur, hBr⟩ _
    simp [runStart, hMob, hMgr, hStart, hCfg, hBr]
  · intro hMob hRead hMgr hne hClear hNext
    cases hs : envC.sessionFile with
    | none => exact absurd hs hne
    | some session => simp [runNext, hMob, hRead, hMgr, hs, hNext]

/-- C5 amended witness: a concrete read failure aborts `next`, and a
concrete clear failure does not. -/
theorem session_persistence_policy_witness :
    (runNext { envNextActive with sessionReadOk := false }).exit =
      .error msgLoadSession ∧
    (runNext envNextClearFails).exit = .ok () := by
  have h := session_persistence_policy { envNextActive with sessionReadOk := false }
    envNextClearFails envStartSaveFails
  exact ⟨(h.1 rfl rfl).1,
    h.2.2 rfl rfl rfl (by simp [envNextClearFails, envNextActive]) rfl rfl⟩

/-! ## C7 — reconciliation is idempotent -/

/-- C7: Re-running the `start` plan reconciliation with unchanged
remote content on the local state produced by a first run always takes
the no-write branch, so the local plan file is byte-identical after
the second run; and `start` never writes to the remote plan store at
all. -/
theorem reconcile_idempotent (R L b t t' : GoStr) :
    reconcileAction R (reconciledLocal R L (defaultPlanTemplate b t)) = .keep ∧
    reconciledLocal R (reconciledLocal R L (defaultPlanTemplate b t))
      (defaultPlanTemplate b t') = reconciledLocal R L (defaultPlanTemplate b t) ∧
    ∀ env : StartEnv, ∀ br c, Ev.apiUpdatePlan br c ∉ (runStart env).events := by
  have htpl : defaultPlanTemplate b t ≠ [] := by
    have : (defaultPlanTemplate b t).length ≠ 0 := by
      simp only [defaultPlanTemplate, List.length_append]
      have h15 : ("# Mob Session: ".toList).length = 15 := by decide
      omega
    intro he
    rw [he] at this
    exact this rfl
  have h1 : reconcileAction R (reconciledLocal R L (defaultPlanTemplate b t)) = .keep := by
    by_cases hR : R = []
    · subst hR
      by_cases hL : L = []
      · subst hL
        simp [reconciledLocal, reconcileAction, htpl]
      · simp [reconciledLocal, reconcileAction, hL]
    · by_cases hRL : R = L
      · subst hRL
        simp [reconciledLocal, reconcileAction, hR]
      · simp [reconciledLocal, reconcileAction, hR, hRL]
  refine ⟨h1, ?_, ?_⟩
  · generalize hL1 : reconciledLocal R L (defaultPlanTemplate b t) = L1 at h1 ⊢
    unfold reconciledLocal
    rw [h1]
  · exact fun env br c => runStart_no_remote_plan_write env br c

/-- C7 witness at concrete plans (both-present-and-differing case). -/
theorem reconcile_idempotent_witness :
    reconcileAction "B".toList
      (reconciledLocal "B".toList "A".toList
        (defaultPlanTemplate "f".toList "t1".toList)) = .keep := by
  exact (reconcile_idempotent "B".toList "A".toList "f".toList "t1".toList
    "t2".toList).1

/-! ## C4 — summary synthesis failure policy -/

/-- C4 counterexample: a backend that returns the parseable output
"\x7b\x7d" (an empty JSON object) makes `Generate` return a summary
with empty tldr, empty changes and empty nextSteps — so it is not true
that synthesis yields non-empty fields for *every* backend outcome;
only the fallback path guarantees that. -/
theorem generate_can_return_empty_fields :
    ¬ (∀ (claudeResult : Except GoStr GoStr) (now diff note branch : GoStr)
        (s : Summary),
        generate claudeResult now diff note branch = .ok s →
        s.tldr ≠ [] ∧ s.changes ≠ [] ∧ s.nextSteps ≠ []) := by
  intro h
  have := h (.ok "\x7b\x7d".toList) "t".toList [] [] "b".toList
    { timestamp := "t".toList, driverName := [], driverNote := [], tldr := [],
      changes := [], nextSteps := [], branch := "b".toList } (by rfl)
  exact this.1 rfl

/-- C4 amended: synthesis never returns an error to its caller, and on
every *failure* outcome — backend absent or erroring, or output that
does not parse — it returns the deterministic fallback summary, whose
tldr, changes and nextSteps are all non-empty.  (When the backend
output parses, its fields are adopted as-is and may be empty.) -/
theorem generate_fallback_policy (claudeResult : Except GoStr GoStr)
    (now diff note branch : GoStr) :
    (∃ s, generate claudeResult now diff note branch = .ok s) ∧
    (∀ e, claudeResult = .error e →
      generate claudeResult now diff note branch =
        .ok (fallbackSummary note branch now)) ∧
    (∀ out, claudeResult = .ok out → parseResponse out = none →
      generate claudeResult now diff note branch =
        .ok (fallbackSummary note branch now)) ∧
    (fallbackSummary note branch now).tldr ≠ [] ∧
    (fallbackSummary note branch now).changes ≠ [] ∧
    (fallbackSummary note branch now).nextSteps ≠ [] := by
  refine ⟨?_, ?_, ?_, ?_, ?_, ?_⟩
  · cases hc : claudeResult with
    | error e => exact ⟨_, rfl⟩
    | ok out =>
      cases hp : parseResponse out with
      | none => exact ⟨fallbackSummary note branch now, by simp [generate, hp]⟩
      | some g =>
        exact ⟨{ timestamp := now, driverName := [], driverNote := note,
                 tldr := g.tldr, changes := g.changes, nextSteps := g.nextSteps,
                 branch := branch }, by simp [generate, hp]⟩
  · intro e he
    subst he
    rfl
  · intro out ho hp
    subst ho
    simp [generate, hp]
  · show (fallbackSummary note branch now).tldr ≠ []
    simp only [fallbackSummary]
    by_cases hn : note = []
    · simp [hn]
    · by_cases hl : note.length > 100
      · simp only [if_neg hn, if_pos hl]
        intro he
        have := congrArg List.length he
        simp at this
      · simp [hn, hl]
  · intro he
    simp [fallbackSummary] at he
  · intro he
    simp [fallbackSummary] at he

/-- C4 amended witness: an absent backend yields the fallback with
non-empty fields. -/
theorem generate_fallback_policy_witness :
    generate (.error "claude CLI not found in PATH".toList)
        "2024-01-02T03:04:05Z".toList [] "note".toList "feature-x".toList =
      .ok (fallbackSummary "note".toList "feature-x".toList
        "2024-01-02T03:04:05Z".toList) ∧
    (fallbackSummary "note".toList "feature-x".toList
      "2024-01-02T03:04:05Z".toList).tldr ≠ [] := by
  have h := generate_fallback_policy (.error "claude CLI not found in PATH".toList)
    "2024-01-02T03:04:05Z".toList [] "note".toList "feature-x".toList
  exact ⟨h.2.1 _ rfl, h.2.2.2.1⟩

/-! ## C9 — serializer/parser round trip: helper lemmas -/

/-- `escapeJSON` unfolded one character at a time. -/
theorem escapeJSON_cons (c : Char) (l : GoStr) :
    escapeJSON (c :: l) =
      (if c = '\\' then ['\\', '\\']
       else if c = '"' then ['\\', '"']
       else if c = '\n' then ['\\', 'n']
       else if c = '\r' then ['\\', 'r']
       else if c = '\t' then ['\\', 't']
       else [c]) ++ escapeJSON l := by
  simp [escapeJSON]

/-- A raw-safe string is read back verbatim by the JSON string
reader. -/
theorem parseStrBody_raw (ts rest : GoStr) (h : rawSafe ts) :
    parseStrBody (ts ++ '"' :: rest) = some (ts, rest) := by
  induction ts with
  | nil =>
    rw [List.nil_append, parseStrBody.eq_def]
    simp
  | cons c l ih =>
    have hc := h c (List.mem_cons_self c l)
    have hl : rawSafe l := fun d hd => h d (List.mem_cons_of_mem c hd)
    rw [List.cons_append, parseStrBody.eq_def]
    simp only [if_neg hc.2.1, if_neg hc.2.2,
      if_neg (show ¬ c.toNat < 32 by omega)]
    simp [ih hl]

/-- An escaped json-safe string is decoded back to the original by
the JSON string reader. -/
theorem parseStrBody_escaped (s rest : GoStr) (h : jsonSafeField s) :
    parseStrBody (escapeJSON s ++ '"' :: rest) = some (s, rest) := by
  induction s with
  | nil =>
    rw [show escapeJSON [] = [] from rfl, List.nil_append, parseStrBody.eq_def]
    simp
  | cons c l ih =>
    have hl : jsonSafeField l := fun d hd => h d (List.mem_cons_of_mem c hd)
    have ihl := ih hl
    by_cases h1 : c = '\\'
    · subst h1
      have he : escapeJSON ('\\' :: l) ++ '"' :: rest =
          '\\' :: '\\' :: (escapeJSON l ++ '"' :: rest) := by
        simp [escapeJSON_cons]
      rw [he, parseStrBody.eq_def]
      simp [unescapeChar, ihl]
    · by_cases h2 : c = '"'
      · subst h2
        have he : escapeJSON ('"' :: l) ++ '"' :: rest =
            '\\' :: '"' :: (escapeJSON l ++ '"' :: rest) := by
          simp [escapeJSON_cons]
        rw [he, parseStrBody.eq_def]
        simp [unescapeChar, ihl]
      · by_cases h3 : c = '\n'
        · subst h3
          have he : escapeJSON ('\n' :: l) ++ '"' :: rest =
              '\\' :: 'n' :: (escapeJSON l ++ '"' :: rest) := by
            simp [escapeJSON_cons]
          rw [he, parseStrBody.eq_def]
          simp [unescapeChar, ihl]
        · by_cases h4 : c = '\r'
          · subst h4
            have he : escapeJSON ('\r' :: l) ++ '"' :: rest =
                '\\' :: 'r' :: (escapeJSON l ++ '"' :: rest) := by
              simp [escapeJSON_cons]
            rw [he, parseStrBody.eq_def]
            simp [unescapeChar, ihl]
          · by_cases h5 : c = '\t'
            · subst h5
              have he : escapeJSON ('\t' :: l) ++ '"' :: rest =
                  '\\' :: 't' :: (escapeJSON l ++ '"' :: rest) := by
                simp [escapeJSON_cons]
              rw [he, parseStrBody.eq_def]
              simp [unescapeChar, ihl]
            · have hge : ¬ c.toNat < 32 := by
                intro hlt
                rcases h c (List.mem_cons_self c l) hlt with h' | h' | h' <;>
                  simp_all
              have he : escapeJSON (c :: l) ++ '"' :: rest =
                  c :: (escapeJSON l ++ '"' :: rest) := by
                simp [escapeJSON_cons, h1, h2, h3, h4, h5]
              rw [he, parseStrBody.eq_def]
              simp only [if_neg h2, if_neg h1, if_neg hge]
              simp [ihl]

/-- `formatStringArray` on a non-empty slice, as a flat join. -/
theorem foldl_join_acc (l : List GoStr) :
    ∀ init : GoStr,
      l.foldl (fun acc s => acc ++ ", ".toList ++ quoteJSON s) init =
        init ++ l.flatMap (fun s => ", ".toList ++ quoteJSON s) := by
  induction l with
  | nil =>
    intro init
    simp
  | cons b m ih =>
    intro init
    rw [List.foldl_cons, List.flatMap_cons, ih]
    simp [List.append_assoc]

theorem formatStringArray_cons (a : GoStr) (l : List GoStr) :
    formatStringArray (a :: l) =
      quoteJSON a ++ l.flatMap (fun s => ", ".toList ++ quoteJSON s) := by
  rw [formatStringArray.eq_def]
  exact foldl_join_acc l (quoteJSON a)

theorem flatMap_quote_length_ge (l : List GoStr) :
    l.length ≤ (l.flatMap (fun s => ", ".toList ++ quoteJSON s)).length := by
  induction l with
  | nil => simp
  | cons b m ih =>
    rw [List.flatMap_cons]
    simp only [List.length_append, List.length_cons]
    have h2 : (", ".toList).length = 2 := by decide
    omega

theorem formatStringArray_length_ge (arr : List GoStr) :
    arr.length ≤ (formatStringArray arr).length := by
  cases arr with
  | nil => simp [formatStringArray]
  | cons a l =>
    rw [formatStringArray_cons]
    simp only [List.length_append]
    have h1 := flatMap_quote_length_ge l
    have hq : 1 ≤ (quoteJSON a).length := by simp [quoteJSON]
    simp only [List.length_cons]
    omega

/-- A JSON string value preceded by a single space parses back to the
raw-safe string it carries. -/
theorem parseValue_spaced_rawstr (f : Nat) (ts rest : GoStr) (h : rawSafe ts)
    (hf : 1 ≤ f) :
    parseValue f (' ' :: '"' :: (ts ++ '"' :: rest)) =
      some (.str ts, rest) := by
  cases f with
  | zero => omega
  | succ g =>
    rw [parseValue.eq_def]
    simp [skipWs, isJsonWs, parseStrBody_raw ts rest h]

/-- A JSON string value preceded by a single space parses back to the
json-safe string whose escaping it carries. -/
theorem parseValue_spaced_escstr (f : Nat) (s rest : GoStr) (h : jsonSafeField s)
    (hf : 1 ≤ f) :
    parseValue f (' ' :: '"' :: (escapeJSON s ++ '"' :: rest)) =
      some (.str s, rest) := by
  cases f with
  | zero => omega
  | succ g =>
    rw [parseValue.eq_def]
    simp [skipWs, isJsonWs, parseStrBody_escaped s rest h]

/-- Step equation of `parseValue` at positive fuel. -/
theorem parseValue_succ (g : Nat) (input : GoStr) :
    parseValue (g + 1) input =
      match skipWs input with
      | [] => none
      | c :: rest =>
        if c = '"' then
          match parseStrBody rest with
          | some (s, r) => some (.str s, r)
          | none => none
        else if c = '\x7b' then parseObjTail g (skipWs rest)
        else if c = '[' then parseArrTail g (skipWs rest)
        else if c = 't' then
          match rest with
          | 'r' :: 'u' :: 'e' :: r => some (.bool true, r)
          | _ => none
        else if c = 'f' then
          match rest with
          | 'a' :: 'l' :: 's' :: 'e' :: r => some (.bool false, r)
          | _ => none
        else if c = 'n' then
          match rest with
          | 'u' :: 'l' :: 'l' :: r => some (.null, r)
          | _ => none
        else if c.isDigit || c = '-' then
          some (.num ((c :: rest).takeWhile isNumChar), (c :: rest).dropWhile isNumChar)
        else none := rfl

/-- Step equation of `parseObjTail` at positive fuel. -/
theorem parseObjTail_succ (g : Nat) (input : GoStr) :
    parseObjTail (g + 1) input =
      match input with
      | [] => none
      | c :: rest =>
        if c = '\x7d' then some (.obj [], rest)
        else
          match parseMembers g input with
          | some (ms, r) => some (.obj ms, r)
          | none => none := rfl

/-- Step equation of `parseMembers` at positive fuel. -/
theorem parseMembers_succ (g : Nat) (input : GoStr) :
    parseMembers (g + 1) input =
      match input with
      | [] => none
      | c :: rest =>
        if c = '"' then
          match parseStrBody rest with
          | none => none
          | some (key, r1) =>
            match skipWs r1 with
            | ':' :: r2 =>
              match parseValue g r2 with
              | none => none
              | some (v, r3) =>
                match skipWs r3 with
                | ',' :: r4 =>
                  match parseMembers g (skipWs r4) with
                  | some (ms, r5) => some ((key, v) :: ms, r5)
                  | none => none
                | c5 :: r5 => if c5 = '\x7d' then some ([(key, v)], r5) else none
                | [] => none
            | _ => none
        else none := rfl

/-- Step equation of `parseArrTail` at positive fuel. -/
theorem parseArrTail_succ (g : Nat) (input : GoStr) :
    parseArrTail (g + 1) input =
      match input with
      | [] => none
      | c :: rest =>
        if c = ']' then some (.arr [], rest)
        else
          match parseElems g input with
          | some (vs, r) => some (.arr vs, r)
          | none => none := rfl

/-- Step equation of `parseElems` at positive fuel. -/
theorem parseElems_succ (g : Nat) (input : GoStr) :
    parseElems (g + 1) input =
      match parseValue g input with
      | none => none
      | some (v, r1) =>
        match skipWs r1 with
        | ',' :: r2 =>
          match parseElems g r2 with
          | some (vs, r3) => some (v :: vs, r3)
          | none => none
        | ']' :: r2 => some ([v], r2)
        | _ => none := rfl

theorem skipWs_ws_append (pad l : GoStr) (hp : ∀ c ∈ pad, isJsonWs c = true) :
    skipWs (pad ++ l) = skipWs l := by
  induction pad with
  | nil => rw [List.nil_append]
  | cons c m ih =>
    rw [List.cons_append, skipWs.eq_def]
    simp only [hp c (List.mem_cons_self c m), if_true]
    exact ih fun d hd => hp d (List.mem_cons_of_mem c hd)

/-- Leading JSON whitespace does not affect `parseValue`. -/
theorem parseValue_ws_lead (f : Nat) (pad l : GoStr)
    (hp : ∀ c ∈ pad, isJsonWs c = true) :
    parseValue f (pad ++ l) = parseValue f l := by
  cases f with
  | zero => rw [parseValue.eq_def, parseValue.eq_def]
  | succ g =>
    rw [parseValue.eq_def, parseValue.eq_def]
    simp only [skipWs_ws_append pad l hp]

/-- Leading JSON whitespace does not affect `parseElems`. -/
theorem parseElems_ws_lead (f : Nat) (pad l : GoStr)
    (hp : ∀ c ∈ pad, isJsonWs c = true) :
    parseElems f (pad ++ l) = parseElems f l := by
  cases f with
  | zero => rw [parseElems.eq_def, parseElems.eq_def]
  | succ g =>
    rw [parseElems.eq_def, parseElems.eq_def]
    simp only [parseValue_ws_lead g pad l hp]

/-- A quoted escaped string at the head of the input. -/
theorem parseValue_str_quoted (f : Nat) (s rest : GoStr) (h : jsonSafeField s)
    (hf : 1 ≤ f) :
    parseValue f ('"' :: (escapeJSON s ++ '"' :: rest)) = some (.str s, rest) := by
  cases f with
  | zero => omega
  | succ g =>
    rw [parseValue.eq_def]
    simp [skipWs, isJsonWs, parseStrBody_escaped s rest h]

/-- The serialized elements of a non-empty string array parse back to
the original strings. -/
theorem parseElems_serialized (tail : List GoStr) :
    ∀ (a : GoStr) (rest : GoStr) (fuel : Nat),
      jsonSafeField a → (∀ s ∈ tail, jsonSafeField s) →
      tail.length + 2 ≤ fuel →
      parseElems fuel
        (quoteJSON a ++ tail.flatMap (fun s => ", ".toList ++ quoteJSON s) ++
          ']' :: rest) =
        some ((a :: tail).map .str, rest) := by
  induction tail with
  | nil =>
    intro a rest fuel ha _ hf
    have hinput : quoteJSON a ++
        (List.flatMap ([] : List GoStr) (fun s => ", ".toList ++ quoteJSON s)) ++ ']' :: rest =
        '"' :: (escapeJSON a ++ '"' :: (']' :: rest)) := by
      simp [quoteJSON]
    rw [hinput]
    cases fuel with
    | zero => omega
    | succ g =>
      rw [parseElems_succ]
      rw [parseValue_str_quoted g a (']' :: rest) ha (by omega)]
      simp [skipWs, isJsonWs]
  | cons b m ih =>
    intro a rest fuel ha hsafe hf
    have hb : jsonSafeField b := hsafe b (List.mem_cons_self b m)
    have hm : ∀ s ∈ m, jsonSafeField s :=
      fun s hs => hsafe s (List.mem_cons_of_mem b hs)
    have hinput : quoteJSON a ++
        (List.flatMap (b :: m) (fun s => ", ".toList ++ quoteJSON s)) ++
          ']' :: rest =
        '"' :: (escapeJSON a ++ '"' :: (',' ::
          (' ' :: (quoteJSON b ++
            m.flatMap (fun s => ", ".toList ++ quoteJSON s) ++ ']' :: rest)))) := by
      simp [quoteJSON]
    rw [hinput]
    cases fuel with
    | zero => omega
    | succ g =>
      rw [parseElems_succ]
      rw [parseValue_str_quoted g a (',' ::
        (' ' :: (quoteJSON b ++
          m.flatMap (fun s => ", ".toList ++ quoteJSON s) ++ ']' :: rest)))
        ha (by omega)]
      have hsw : skipWs (',' ::
          (' ' :: (quoteJSON b ++
            m.flatMap (fun s => ", ".toList ++ quoteJSON s) ++ ']' :: rest))) =
          ',' :: (' ' :: (quoteJSON b ++
            m.flatMap (fun s => ", ".toList ++ quoteJSON s) ++ ']' :: rest)) := by
        rw [skipWs.eq_def]
        simp [isJsonWs]
      have hpad : parseElems g (' ' :: (quoteJSON b ++
          m.flatMap (fun s => ", ".toList ++ quoteJSON s) ++ ']' :: rest)) =
          parseElems g (quoteJSON b ++
            m.flatMap (fun s => ", ".toList ++ quoteJSON s) ++ ']' :: rest) :=
        parseElems_ws_lead g [' '] _ (by decide)
      have hlen : m.length + 2 ≤ g := by
        simp only [List.length_cons] at hf
        omega
      simp only [hsw, hpad, ih b rest g hb hm hlen]
      simp

/-- A serialized string array parses back to the original strings. -/
theorem parseValue_arr_quoted (f : Nat) (arr : List GoStr) (rest : GoStr)
    (h : ∀ s ∈ arr, jsonSafeField s) (hf : arr.length + 3 ≤ f) :
    parseValue f ('[' :: (formatStringArray arr ++ ']' :: rest)) =
      some (.arr (arr.map .str), rest) := by
  cases f with
  | zero => omega
  | succ g =>
    rw [parseValue_succ]
    cases arr with
    | nil =>
      have he : formatStringArray ([] : List GoStr) ++ ']' :: rest =
          ']' :: rest := by
        simp [formatStringArray]
      rw [he]
      cases g with
      | zero => omega
      | succ g2 =>
        simp [parseArrTail_succ, skipWs, isJsonWs]
    | cons b m =>
      have hb : jsonSafeField b := h b (List.mem_cons_self b m)
      have hm : ∀ s ∈ m, jsonSafeField s :=
        fun s hs => h s (List.mem_cons_of_mem b hs)
      have he : formatStringArray (b :: m) ++ ']' :: rest =
          '"' :: (escapeJSON b ++ '"' ::
            (m.flatMap (fun s => ", ".toList ++ quoteJSON s) ++ ']' :: rest)) := by
        rw [formatStringArray_cons]
        simp [quoteJSON]
      rw [he]
      cases g with
      | zero => omega
      | succ g2 =>
        have helems := parseElems_serialized m b rest g2 hb hm (by
          simp only [List.length_cons] at hf
          omega)
        have he2 : quoteJSON b ++
            m.flatMap (fun s => ", ".toList ++ quoteJSON s) ++ ']' :: rest =
            '"' :: (escapeJSON b ++ '"' ::
              (m.flatMap (fun s => ", ".toList ++ quoteJSON s) ++ ']' :: rest)) := by
          simp [quoteJSON]
        rw [he2] at helems
        simp at helems
        simp [parseArrTail_succ, skipWs, isJsonWs, helems]

/-- One serialized `"key": value` member followed by a comma and
further members. -/
theorem parseMembers_cons_serialized (f : Nat) (key valinput r3 r4 r5 : GoStr)
    (v : JsonValue) (ms : List (GoStr × JsonValue))
    (hk : rawSafe key)
    (hv : parseValue f valinput = some (v, r3))
    (hsk : skipWs r3 = ',' :: r4)
    (hrest : parseMembers f (skipWs r4) = some (ms, r5)) :
    parseMembers (f + 1) ('"' :: (key ++ '"' :: ':' :: valinput)) =
      some ((key, v) :: ms, r5) := by
  rw [parseMembers_succ]
  simp [parseStrBody_raw key (':' :: valinput) hk, skipWs, isJsonWs, hv, hsk,
    hrest]

/-- The final serialized member, followed by the closing brace. -/
theorem parseMembers_last_serialized (f : Nat) (key valinput r3 r5 : GoStr)
    (v : JsonValue) (hk : rawSafe key)
    (hv : parseValue f valinput = some (v, r3))
    (hsk : skipWs r3 = '\x7d' :: r5) :
    parseMembers (f + 1) ('"' :: (key ++ '"' :: ':' :: valinput)) =
      some ([(key, v)], r5) := by
  rw [parseMembers_succ]
  simp [parseStrBody_raw key (':' :: valinput) hk, skipWs, isJsonWs, hv, hsk]

/-! The literal segments of `saveSummaryContent`, exploded into the
character forms the parser walks. -/

theorem contentChunk1 : ("\n  \"timestamp\": \"").toList =
    '\n' :: ' ' :: ' ' :: '"' ::
      ("timestamp".toList ++ '"' :: ':' :: ' ' :: '"' :: ([] : GoStr)) := by
  decide

theorem contentChunk2 : ("\",\n  \"driverName\": \"").toList =
    '"' :: ',' :: '\n' :: ' ' :: ' ' :: '"' ::
      ("driverName".toList ++ '"' :: ':' :: ' ' :: '"' :: ([] : GoStr)) := by
  decide

theorem contentChunk3 : ("\",\n  \"driverNote\": \"").toList =
    '"' :: ',' :: '\n' :: ' ' :: ' ' :: '"' ::
      ("driverNote".toList ++ '"' :: ':' :: ' ' :: '"' :: ([] : GoStr)) := by
  decide

theorem contentChunk4 : ("\",\n  \"tldr\": \"").toList =
    '"' :: ',' :: '\n' :: ' ' :: ' ' :: '"' ::
      ("tldr".toList ++ '"' :: ':' :: ' ' :: '"' :: ([] : GoStr)) := by
  decide

theorem contentChunk5 : ("\",\n  \"changes\": [").toList =
    '"' :: ',' :: '\n' :: ' ' :: ' ' :: '"' ::
      ("changes".toList ++ '"' :: ':' :: ' ' :: '[' :: ([] : GoStr)) := by
  decide

theorem contentChunk6 : ("],\n  \"nextSteps\": [").toList =
    ']' :: ',' :: '\n' :: ' ' :: ' ' :: '"' ::
      ("nextSteps".toList ++ '"' :: ':' :: ' ' :: '[' :: ([] : GoStr)) := by
  decide

theorem contentChunk7 : ("],\n  \"branch\": \"").toList =
    ']' :: ',' :: '\n' :: ' ' :: ' ' :: '"' ::
      ("branch".toList ++ '"' :: ':' :: ' ' :: '"' :: ([] : GoStr)) := by
  decide

theorem contentChunk8 : ("\"\n").toList = '"' :: '\n' :: ([] : GoStr) := by
  decide

set_option maxHeartbeats 1000000 in
/-- The serialized summary document parses back to exactly the
original field values. -/
theorem parseValue_summaryContent (s : Summary)
    (hts : rawSafe s.timestamp) (hdn : jsonSafeField s.driverName)
    (hdo : jsonSafeField s.driverNote) (htl : jsonSafeField s.tldr)
    (hch : ∀ c ∈ s.changes, jsonSafeField c)
    (hns : ∀ c ∈ s.nextSteps, jsonSafeField c)
    (hbr : jsonSafeField s.branch) :
    ∀ f, s.changes.length + s.nextSteps.length + 12 ≤ f →
      parseValue f (saveSummaryContent s) = some (summaryJson s, []) := by
  intro f hf
  simp only [saveSummaryContent, contentChunk1, contentChunk2, contentChunk3,
    contentChunk4, contentChunk5, contentChunk6, contentChunk7, contentChunk8,
    List.append_assoc, List.cons_append, List.nil_append]
  obtain ⟨f7, rfl⟩ : ∃ x, f = x + 9 := ⟨f - 9, by omega⟩
  have hb7 : s.changes.length + s.nextSteps.length + 3 ≤ f7 := by omega
  set M7 : GoStr := '"' :: ("branch".toList ++ '"' :: ':' :: ' ' :: '"' ::
    (escapeJSON s.branch ++ '"' :: '\n' :: '\x7d' :: [])) with hM7
  set M6 : GoStr := '"' :: ("nextSteps".toList ++ '"' :: ':' :: ' ' :: '[' ::
    (formatStringArray s.nextSteps ++ ']' :: ',' :: '\n' :: ' ' :: ' ' :: M7)) with hM6
  set M5 : GoStr := '"' :: ("changes".toList ++ '"' :: ':' :: ' ' :: '[' ::
    (formatStringArray s.changes ++ ']' :: ',' :: '\n' :: ' ' :: ' ' :: M6)) with hM5
  set M4 : GoStr := '"' :: ("tldr".toList ++ '"' :: ':' :: ' ' :: '"' ::
    (escapeJSON s.tldr ++ '"' :: ',' :: '\n' :: ' ' :: ' ' :: M5)) with hM4
  set M3 : GoStr := '"' :: ("driverNote".toList ++ '"' :: ':' :: ' ' :: '"' ::
    (escapeJSON s.driverNote ++ '"' :: ',' :: '\n' :: ' ' :: ' ' :: M4)) with hM3
  set M2 : GoStr := '"' :: ("driverName".toList ++ '"' :: ':' :: ' ' :: '"' ::
    (escapeJSON s.driverName ++ '"' :: ',' :: '\n' :: ' ' :: ' ' :: M3)) with hM2
  have hsw2 : ∀ X : GoStr, skipWs ('\n' :: ' ' :: ' ' :: '"' :: X) = '"' :: X := by
    intro X
    simp [skipWs, isJsonWs]
  have hm7 : parseMembers (f7 + 1) M7 =
      some ([("branch".toList, JsonValue.str s.branch)], []) := by
    rw [hM7]
    exact parseMembers_last_serialized f7 ("branch".toList)
      (' ' :: '"' :: (escapeJSON s.branch ++ '"' :: '\n' :: '\x7d' :: []))
      ('\n' :: '\x7d' :: []) [] (JsonValue.str s.branch) (by decide)
      (parseValue_spaced_escstr f7 s.branch ('\n' :: '\x7d' :: []) hbr (by omega))
      (by simp [skipWs, isJsonWs])
  have hm6 : parseMembers (f7 + 2) M6 =
      some (("nextSteps".toList, JsonValue.arr (s.nextSteps.map JsonValue.str)) ::
        ("branch".toList, JsonValue.str s.branch) :: [], []) := by
    have e : f7 + 2 = (f7 + 1) + 1 := rfl
    rw [e, hM6]
    refine parseMembers_cons_serialized (f7 + 1) ("nextSteps".toList)
      (' ' :: '[' :: (formatStringArray s.nextSteps ++
        ']' :: ',' :: '\n' :: ' ' :: ' ' :: M7))
      (',' :: '\n' :: ' ' :: ' ' :: M7)
      ('\n' :: ' ' :: ' ' :: M7) []
      (JsonValue.arr (s.nextSteps.map JsonValue.str))
      ([("branch".toList, JsonValue.str s.branch)])
      (by decide) ?_ ?_ ?_
    · exact (parseValue_ws_lead (f7 + 1) [' ']
        ('[' :: (formatStringArray s.nextSteps ++
          ']' :: ',' :: '\n' :: ' ' :: ' ' :: M7)) (by decide)).trans
        (parseValue_arr_quoted (f7 + 1) s.nextSteps
          (',' :: '\n' :: ' ' :: ' ' :: M7) hns (by omega))
    · simp [skipWs, isJsonWs]
    · have hsw : skipWs ('\n' :: ' ' :: ' ' :: M7) = M7 := by
        rw [hM7]
        exact hsw2 _
      rw [hsw]
      exact hm7
  have hm5 : parseMembers (f7 + 3) M5 =
      some (("changes".toList, JsonValue.arr (s.changes.map JsonValue.str)) ::
        ("nextSteps".toList, JsonValue.arr (s.nextSteps.map JsonValue.str)) ::
        ("branch".toList, JsonValue.str s.branch) :: [], []) := by
    have e : f7 + 3 = (f7 + 2) + 1 := rfl
    rw [e, hM5]
    refine parseMembers_cons_serialized (f7 + 2) ("changes".toList)
      (' ' :: '[' :: (formatStringArray s.changes ++
        ']' :: ',' :: '\n' :: ' ' :: ' ' :: M6))
      (',' :: '\n' :: ' ' :: ' ' :: M6)
      ('\n' :: ' ' :: ' ' :: M6) []
      (JsonValue.arr (s.changes.map JsonValue.str))
      (("nextSteps".toList, JsonValue.arr (s.nextSteps.map JsonValue.str)) ::
        ("branch".toList, JsonValue.str s.branch) :: [])
      (by decide) ?_ ?_ ?_
    · exact (parseValue_ws_lead (f7 + 2) [' ']
        ('[' :: (formatStringArray s.changes ++
          ']' :: ',' :: '\n' :: ' ' :: ' ' :: M6)) (by decide)).trans
        (parseValue_arr_quoted (f7 + 2) s.changes
          (',' :: '\n' :: ' ' :: ' ' :: M6) hch (by omega))
    · simp [skipWs, isJsonWs]
    · have hsw : skipWs ('\n' :: ' ' :: ' ' :: M6) = M6 := by
        rw [hM6]
        exact hsw2 _
      rw [hsw]
      exact hm6
  have hm4 : parseMembers (f7 + 4) M4 =
      some (("tldr".toList, JsonValue.str s.tldr) ::
        ("changes".toList, JsonValue.arr (s.changes.map JsonValue.str)) ::
        ("nextSteps".toList, JsonValue.arr (s.nextSteps.map JsonValue.str)) ::
        ("branch".toList, JsonValue.str s.branch) :: [], []) := by
    have e : f7 + 4 = (f7 + 3) + 1 := rfl
    rw [e, hM4]
    refine parseMembers_cons_serialized (f7 + 3) ("tldr".toList)
      (' ' :: '"' :: (escapeJSON s.tldr ++ '"' :: ',' :: '\n' :: ' ' :: ' ' :: M5))
      (',' :: '\n' :: ' ' :: ' ' :: M5)
      ('\n' :: ' ' :: ' ' :: M5) []
      (JsonValue.str s.tldr)
      (("changes".toList, JsonValue.arr (s.changes.map JsonValue.str)) ::
        ("nextSteps".toList, JsonValue.arr (s.nextSteps.map JsonValue.str)) ::
        ("branch".toList, JsonValue.str s.branch) :: [])
      (by decide) ?_ ?_ ?_
    · exact parseValue_spaced_escstr (f7 + 3) s.tldr
        (',' :: '\n' :: ' ' :: ' ' :: M5) htl (by omega)
    · simp [skipWs, isJsonWs]
    · have hsw : skipWs ('\n' :: ' ' :: ' ' :: M5) = M5 := by
        rw [hM5]
        exact hsw2 _
      rw [hsw]
      exact hm5
  have hm3 : parseMembers (f7 + 5) M3 =
      some (("driverNote".toList, JsonValue.str s.driverNote) ::
        ("tldr".toList, JsonValue.str s.tldr) ::
        ("changes".toList, JsonValue.arr (s.changes.map JsonValue.str)) ::
        ("nextSteps".toList, JsonValue.arr (s.nextSteps.map JsonValue.str)) ::
        ("branch".toList, JsonValue.str s.branch) :: [], []) := by
    have e : f7 + 5 = (f7 + 4) + 1 := rfl
    rw [e, hM3]
    refine parseMembers_cons_serialized (f7 + 4) ("driverNote".toList)
      (' ' :: '"' :: (escapeJSON s.driverNote ++ '"' :: ',' :: '\n' :: ' ' :: ' ' :: M4))
      (',' :: '\n' :: ' ' :: ' ' :: M4)
      ('\n' :: ' ' :: ' ' :: M4) []
      (JsonValue.str s.driverNote)
      (("tldr".toList, JsonValue.str s.tldr) ::
        ("changes".toList, JsonValue.arr (s.changes.map JsonValue.str)) ::
        ("nextSteps".toList, JsonValue.arr (s.nextSteps.map JsonValue.str)) ::
        ("branch".toList, JsonValue.str s.branch) :: [])
      (by decide) ?_ ?_ ?_
    · exact parseValue_spaced_escstr (f7 + 4) s.driverNote
        (',' :: '\n' :: ' ' :: ' ' :: M4) hdo (by omega)
    · simp [skipWs, isJsonWs]
    · have hsw : skipWs ('\n' :: ' ' :: ' ' :: M4) = M4 := by
        rw [hM4]
        exact hsw2 _
      rw [hsw]
      exact hm4
  have hm2 : parseMembers (f7 + 6) M2 =
      some (("driverName".toList, JsonValue.str s.driverName) ::
        ("driverNote".toList, JsonValue.str s.driverNote) ::
        ("tldr".toList, JsonValue.str s.tldr) ::
        ("changes".toList, JsonValue.arr (s.changes.map JsonValue.str)) ::
        ("nextSteps".toList, JsonValue.arr (s.nextSteps.map JsonValue.str)) ::
        ("branch".toList, JsonValue.str s.branch) :: [], []) := by
    have e : f7 + 6 = (f7 + 5) + 1 := rfl
    rw [e, hM2]
    refine parseMembers_cons_serialized (f7 + 5) ("driverName".toList)
      (' ' :: '"' :: (escapeJSON s.driverName ++ '"' :: ',' :: '\n' :: ' ' :: ' ' :: M3))
      (',' :: '\n' :: ' ' :: ' ' :: M3)
      ('\n' :: ' ' :: ' ' :: M3) []
      (JsonValue.str s.driverName)
      (("driverNote".toList, JsonValue.str s.driverNote) ::
        ("tldr".toList, JsonValue.str s.tldr) ::
        ("changes".toList, JsonValue.arr (s.changes.map JsonValue.str)) ::
        ("nextSteps".toList, JsonValue.arr (s.nextSteps.map JsonValue.str)) ::
        ("branch".toList, JsonValue.str s.branch) :: [])
      (by decide) ?_ ?_ ?_
    · exact parseValue_spaced_escstr (f7 + 5) s.driverName
        (',' :: '\n' :: ' ' :: ' ' :: M3) hdn (by omega)
    · simp [skipWs, isJsonWs]
    · have hsw : skipWs ('\n' :: ' ' :: ' ' :: M3) = M3 := by
        rw [hM3]
        exact hsw2 _
      rw [hsw]
      exact hm3
  have hm1 : parseMembers (f7 + 7) ('"' :: ("timestamp".toList ++ '"' :: ':' :: ' ' :: '"' ::
      (s.timestamp ++ '"' :: ',' :: '\n' :: ' ' :: ' ' :: M2))) =
      some (("timestamp".toList, JsonValue.str s.timestamp) ::
        ("driverName".toList, JsonValue.str s.driverName) ::
        ("driverNote".toList, JsonValue.str s.driverNote) ::
        ("tldr".toList, JsonValue.str s.tldr) ::
        ("changes".toList, JsonValue.arr (s.changes.map JsonValue.str)) ::
        ("nextSteps".toList, JsonValue.arr (s.nextSteps.map JsonValue.str)) ::
        ("branch".toList, JsonValue.str s.branch) :: [], []) := by
    have e : f7 + 7 = (f7 + 6) + 1 := rfl
    rw [e]
    refine parseMembers_cons_serialized (f7 + 6) ("timestamp".toList)
      (' ' :: '"' :: (s.timestamp ++ '"' :: ',' :: '\n' :: ' ' :: ' ' :: M2))
      (',' :: '\n' :: ' ' :: ' ' :: M2)
      ('\n' :: ' ' :: ' ' :: M2) []
      (JsonValue.str s.timestamp)
      (("driverName".toList, JsonValue.str s.driverName) ::
        ("driverNote".toList, JsonValue.str s.driverNote) ::
        ("tldr".toList, JsonValue.str s.tldr) ::
        ("changes".toList, JsonValue.arr (s.changes.map JsonValue.str)) ::
        ("nextSteps".toList, JsonValue.arr (s.nextSteps.map JsonValue.str)) ::
        ("branch".toList, JsonValue.str s.branch) :: [])
      (by decide) ?_ ?_ ?_
    · exact parseValue_spaced_rawstr (f7 + 6) s.timestamp
        (',' :: '\n' :: ' ' :: ' ' :: M2) hts (by omega)
    · simp [skipWs, isJsonWs]
    · have hsw : skipWs ('\n' :: ' ' :: ' ' :: M2) = M2 := by
        rw [hM2]
        exact hsw2 _
      rw [hsw]
      exact hm2
  have e1 : f7 + 9 = (f7 + 8) + 1 := rfl
  rw [e1, parseValue_succ]
  have hsw1 : skipWs ('\n' :: ' ' :: ' ' :: '"' :: ("timestamp".toList ++ '"' :: ':' :: ' ' :: '"' ::
      (s.timestamp ++ '"' :: ',' :: '\n' :: ' ' :: ' ' :: M2))) =
      '"' :: ("timestamp".toList ++ '"' :: ':' :: ' ' :: '"' ::
      (s.timestamp ++ '"' :: ',' :: '\n' :: ' ' :: ' ' :: M2)) := hsw2 _
  have hsw0 : skipWs ('\x7b' :: '\n' :: ' ' :: ' ' :: '"' :: ("timestamp".toList ++ '"' :: ':' :: ' ' :: '"' ::
      (s.timestamp ++ '"' :: ',' :: '\n' :: ' ' :: ' ' :: M2))) =
      '\x7b' :: '\n' :: ' ' :: ' ' :: '"' :: ("timestamp".toList ++ '"' :: ':' :: ' ' :: '"' ::
      (s.timestamp ++ '"' :: ',' :: '\n' :: ' ' :: ' ' :: M2)) := by
    rw [skipWs.eq_def]
    simp [isJsonWs]
  simp only [hsw0, hsw1]
  simp only [reduceIte]
  have e2 : f7 + 8 = (f7 + 7) + 1 := rfl
  rw [e2, parseObjTail_succ]
  simp at hm1
  simp [hm1, summaryJson]


theorem escapeJSON_length_ge (s : GoStr) : s.length ≤ (escapeJSON s).length := by
  induction s with
  | nil => simp [escapeJSON]
  | cons c l ih =>
    rw [escapeJSON_cons]
    simp only [List.length_append, List.length_cons]
    have h1 : 1 ≤ (if c = '\\' then ['\\', '\\']
        else if c = '"' then ['\\', '"']
        else if c = '\n' then ['\\', 'n']
        else if c = '\r' then ['\\', 'r']
        else if c = '\t' then ['\\', 't']
        else [c]).length := by
      split_ifs <;> simp
    omega

/-- The serialized document is long enough to feed `jsonParse`'s
length-derived fuel through every member and element. -/
theorem saveSummaryContent_length (s : Summary) :
    s.changes.length + s.nextSteps.length + 11 ≤ (saveSummaryContent s).length := by
  have c1 := formatStringArray_length_ge s.changes
  have c2 := formatStringArray_length_ge s.nextSteps
  simp only [saveSummaryContent, List.length_append, List.length_cons]
  have l1 : ("\n  \"timestamp\": \"".toList).length = 17 := by decide
  have l2 : ("\",\n  \"driverName\": \"".toList).length = 20 := by decide
  omega

/-! ## C9 — the hand-rolled summary serializer round-trips -/

/-- C9: For every summary whose string fields carry no control
characters other than newline, carriage return and tab (and whose
timestamp is an RFC3339-shaped string), the file content written by
`SaveSummary` is valid JSON, and parsing it recovers exactly the
original seven field values. -/
theorem saveSummary_round_trip (s : Summary)
    (hts : rawSafe s.timestamp) (hdn : jsonSafeField s.driverName)
    (hdo : jsonSafeField s.driverNote) (htl : jsonSafeField s.tldr)
    (hch : ∀ c ∈ s.changes, jsonSafeField c)
    (hns : ∀ c ∈ s.nextSteps, jsonSafeField c)
    (hbr : jsonSafeField s.branch) :
    jsonParse (saveSummaryContent s) = some (summaryJson s) := by
  unfold jsonParse
  rw [parseValue_summaryContent s hts hdn hdo htl hch hns hbr
    ((saveSummaryContent s).length + 1)
    (by have := saveSummaryContent_length s; omega)]
  simp [skipWs]

/-- C9 witness: the example summary — quotes, newlines, tabs and
backslashes in its fields — serializes to a document that parses back
to exactly its field values. -/
theorem saveSummary_round_trip_witness :
    jsonParse (saveSummaryContent exampleSummary) =
      some (summaryJson exampleSummary) :=
  saveSummary_round_trip exampleSummary (by decide) (by decide) (by decide)
    (by decide) (by decide) (by decide) (by decide)

end MobClaude
